import Mathlib

/-!
Verification of the curtain-wall / floor-plate generators
(`src/elements/curtain_wall.py`, `src/elements/floor_plate.py`).

The geometry is embedded over `ℝ` (the idealisation of the source's
floating-point numbers): `Rhino.Geometry` points/vectors become `Vec3`,
`Vector3d.Length` becomes `Real.sqrt` of the sum of squares, `Unitize`
divides by the length, and a `Plane` records the `(origin, xaxis, yaxis)`
triple the source passes to `rg.Plane`.  A generated brep is recorded as a
`Solid`: its defining plane, the two in-plane extents and the extrusion
height, tagged with the construction site (`mullion` / `transom` / `glass`);
`rg.Extrusion.Create` is modelled as total (the source only checks its
result for `None` and skips, an external-library failure mode outside the
algorithm).  The external `rs.coercecurve` / `TryGetPolyline` resolution is
modelled by an input datatype `GuideInput` listing its three possible
outcomes.  Because `Real.sqrt` and comparisons on `ℝ` are noncomputable,
the geometric definitions are `noncomputable`; concrete runs are evaluated
in proofs with `norm_num` plus square-root facts.
-/

namespace BimLib

/-- 3D point/vector (Rhino `Point3d` / `Vector3d`). -/
structure Vec3 where
  x : ℝ
  y : ℝ
  z : ℝ

namespace Vec3

instance : Add Vec3 := ⟨fun a b => ⟨a.x + b.x, a.y + b.y, a.z + b.z⟩⟩
instance : Sub Vec3 := ⟨fun a b => ⟨a.x - b.x, a.y - b.y, a.z - b.z⟩⟩
instance : Neg Vec3 := ⟨fun a => ⟨-a.x, -a.y, -a.z⟩⟩
instance : SMul ℝ Vec3 := ⟨fun r a => ⟨r * a.x, r * a.y, r * a.z⟩⟩

/-- Dot product (`Vector3d.Multiply`). -/
def dot (a b : Vec3) : ℝ := a.x * b.x + a.y * b.y + a.z * b.z

/-- Cross product (`Vector3d.CrossProduct`). -/
def cross (a b : Vec3) : Vec3 :=
  ⟨a.y * b.z - a.z * b.y, a.z * b.x - a.x * b.z, a.x * b.y - a.y * b.x⟩

/-- Euclidean length (`Vector3d.Length`). -/
noncomputable def len (v : Vec3) : ℝ := Real.sqrt (v.x ^ 2 + v.y ^ 2 + v.z ^ 2)

/-- `Vector3d.Unitize`: scale to unit length; a zero vector is left unchanged. -/
noncomputable def unitize (v : Vec3) : Vec3 := if len v = 0 then v else (1 / len v) • v

/-- `RhinoMath.ZeroTolerance` (2⁻³²), the default tolerance of `Vector3d.IsTiny`. -/
noncomputable def tinyTol : ℝ := 1 / 4294967296

/-- `Vector3d.IsTiny()`: every component is within `tinyTol` of zero. -/
def isTiny (v : Vec3) : Prop := |v.x| ≤ tinyTol ∧ |v.y| ≤ tinyTol ∧ |v.z| ≤ tinyTol

noncomputable instance (v : Vec3) : Decidable (isTiny v) := by
  unfold isTiny; exact inferInstanceAs (Decidable (_ ∧ _ ∧ _))

/-- `Vector3d.ZAxis`. -/
def zAxis : Vec3 := ⟨0, 0, 1⟩

/-- `Vector3d.YAxis` (the fallback lateral axis for near-vertical segments). -/
def worldY : Vec3 := ⟨0, 1, 0⟩

/-- Add `dz` to the z coordinate (`pt.Z += dz` in the source). -/
def addZ (v : Vec3) (dz : ℝ) : Vec3 := ⟨v.x, v.y, v.z + dz⟩

end Vec3

open Vec3

/-- The construction site a solid was emitted from.  The source keeps
mullions and transoms in one flat list (`breps_mullions`) and glass in a
second one; the tag records which call site built the brep. -/
inductive SolidKind
  | mullion
  | transom
  | glass
  deriving DecidableEq

/-- `rg.Plane(origin, xaxis, yaxis)` as the source constructs it. -/
structure Plane where
  origin : Vec3
  xaxis : Vec3
  yaxis : Vec3

/-- A generated rectangular prism: rectangle of extents `sizeX × sizeY`
centered on `plane.origin` (in the plane's axes), extruded by `height`
(`_centered_rect_curve` + `rg.Extrusion.Create`, modelled as total). -/
structure Solid where
  kind : SolidKind
  plane : Plane
  sizeX : ℝ
  sizeY : ℝ
  height : ℝ

/-- Shift a solid vertically by `dz` (what "story `s` is a vertical translate
of story 0 by `s * story_height`" means for a generated solid). -/
def vtransZ (dz : ℝ) (s : Solid) : Solid :=
  { s with plane := { s.plane with origin := addZ s.plane.origin dz } }

/-- Count the solids of one kind in an output collection. -/
def countKind (k : SolidKind) (l : List Solid) : ℕ := (l.map Solid.kind).count k

/-- The error taxonomy of `_coerce_polyline`: `TypeError("guide must be a
Curve")`, `TypeError("guide must be a polyline ...")`,
`ValueError("polyline must have at least 2 points")`. -/
inductive GuideError
  | invalidGuideType
  | notPolylineShape
  | degenerateGuide
  deriving DecidableEq

/-- The possible outcomes of the external `rs.coercecurve` +
`Curve.TryGetPolyline` resolution of the opaque input handle: not a curve
at all, a curve with no polyline representation, or a polyline with the
given ordered vertices. -/
inductive GuideInput
  | notCurve
  | nonPolylineCurve
  | polyline (pts : List Vec3)

/-- `_coerce_polyline` (curtain_wall.py lines 10-22). -/
def coercePolyline : GuideInput → Except GuideError (List Vec3)
  | .notCurve => .error .invalidGuideType
  | .nonPolylineCurve => .error .notPolylineShape
  | .polyline pts => if pts.length < 2 then .error .degenerateGuide else .ok pts

/-- The numeric parameters of `curtain_wall`, with the source's defaults. -/
structure CWParams where
  mullion_spacing : ℝ
  mullion_width : ℝ
  mullion_depth : ℝ
  transom_height : ℝ
  transom_depth : ℝ
  panel_thickness : ℝ
  glass_inset : ℝ
  glass_gap : ℝ
  story_height : ℝ
  stories : ℕ

def defaultParams : CWParams :=
  ⟨1350, 60, 120, 60, 120, 24, 40, 12, 3200, 1⟩

/-- The `1e-6` epsilon used for every degeneracy comparison in the source. -/
noncomputable def eps : ℝ := 1 / 1000000

/-- `panel_count = max(1, int(seg_len // mullion_spacing_mm))`. -/
noncomputable def panelCount (segLen spacing : ℝ) : ℕ :=
  max 1 (⌊segLen / spacing⌋).toNat

/-- `step = seg_len / panel_count`. -/
noncomputable def bayStep (segLen spacing : ℝ) : ℝ :=
  segLen / (panelCount segLen spacing : ℝ)

/-- Candidate lateral axis of a segment: `CrossProduct(ZAxis, xaxis)`,
replaced by world Y if tiny, then unitized (lines 105-109). -/
noncomputable def candidateY (xaxis : Vec3) : Vec3 :=
  unitize (if isTiny (cross zAxis xaxis) then worldY else cross zAxis xaxis)

/-- The lateral-continuity rule (lines 114-116): if a previous lateral axis
exists and its dot with the candidate is negative, reverse the candidate. -/
noncomputable def assignY (prev : Option Vec3) (cand : Vec3) : Vec3 :=
  match prev with
  | none => cand
  | some pv => if dot cand pv < 0 then -cand else cand

/-- The body of the per-bay loop (`for j in range(panel_count)`, lines
126-186), returning (framing solids, glass solids) appended for bay `j`.
`ps` is the segment's start point (before the story offset), `z0` the story
base elevation. -/
noncomputable def processBay (p : CWParams) (ps xaxis yaxis : Vec3) (step z0 : ℝ)
    (j : ℕ) : List Solid × List Solid :=
  let d0 : ℝ := (j : ℝ) * step
  let d1 : ℝ := ((j : ℝ) + 1) * step
  let base_pt := addZ (ps + d0 • xaxis) z0
  let next_pt := addZ (ps + d1 • xaxis) z0
  let mull : Solid :=
    ⟨.mullion, ⟨base_pt, xaxis, yaxis⟩, p.mullion_width, p.mullion_depth, p.story_height⟩
  let edge_offset := p.mullion_width * (1 / 2)
  let panel_start := base_pt + edge_offset • xaxis
  let panel_end := next_pt - edge_offset • xaxis
  let clear_vec := panel_end - panel_start
  let clear_span := len clear_vec
  if clear_span ≤ eps then ([mull], []) else
  let clear_width := clear_span - 2 * p.glass_gap
  let clear_height := p.story_height - 2 * p.transom_height - 2 * p.glass_gap
  if clear_width ≤ eps ∨ clear_height ≤ eps then ([mull], []) else
  let clear_dir := unitize clear_vec
  let mid := (1 / 2 : ℝ) • (panel_start + panel_end)
  let bot : Solid :=
    ⟨.transom, ⟨⟨mid.x, mid.y, ps.z + z0⟩, clear_dir, yaxis⟩,
      clear_span, p.transom_depth, p.transom_height⟩
  let top : Solid :=
    ⟨.transom, ⟨⟨mid.x, mid.y, ps.z + (z0 + p.story_height) - p.transom_height⟩, clear_dir, yaxis⟩,
      clear_span, p.transom_depth, p.transom_height⟩
  let off := p.mullion_depth / 2 - p.glass_inset - p.panel_thickness / 2
  let gorigin : Vec3 :=
    ⟨mid.x - yaxis.x * off, mid.y - yaxis.y * off, ps.z + z0 + p.transom_height + p.glass_gap⟩
  let glass : Solid :=
    ⟨.glass, ⟨gorigin, clear_dir, yaxis⟩, clear_width, p.panel_thickness, clear_height⟩
  ([mull, bot, top], [glass])

/-- One iteration of the segment loop (lines 97-194): skip a degenerate
segment, otherwise derive the frame, update the propagation state, emit all
bays and the end-of-segment mullion. -/
noncomputable def processSegment (p : CWParams) (ps pe : Vec3) (z0 : ℝ)
    (prev : Option Vec3) : (List Solid × List Solid) × Option Vec3 :=
  let seg_vec := pe - ps
  let seg_len := len seg_vec
  if seg_len ≤ eps then (([], []), prev) else
  let xaxis := unitize seg_vec
  let yaxis := assignY prev (candidateY xaxis)
  let n := panelCount seg_len p.mullion_spacing
  let step := bayStep seg_len p.mullion_spacing
  let framing := (List.range n).flatMap fun j => (processBay p ps xaxis yaxis step z0 j).1
  let glass := (List.range n).flatMap fun j => (processBay p ps xaxis yaxis step z0 j).2
  let end_mull : Solid :=
    ⟨.mullion, ⟨addZ pe z0, xaxis, yaxis⟩, p.mullion_width, p.mullion_depth, p.story_height⟩
  ((framing ++ [end_mull], glass), some yaxis)

/-- The consecutive-point segments of the polyline (`for i in range(pl.Count - 1)`). -/
def segments (pts : List Vec3) : List (Vec3 × Vec3) := pts.zip pts.tail

/-- One story's traversal of the whole guide at base elevation `z0`,
threading the lateral propagation state through the segments. -/
noncomputable def processStory (p : CWParams) :
    List (Vec3 × Vec3) → ℝ → Option Vec3 → (List Solid × List Solid) × Option Vec3
  | [], _, prev => (([], []), prev)
  | (ps, pe) :: rest, z0, prev =>
    let r := processSegment p ps pe z0 prev
    let rs := processStory p rest z0 r.2
    ((r.1.1 ++ rs.1.1, r.1.2 ++ rs.1.2), rs.2)

/-- The story loop `for s in range(stories)` starting at story index `s`
with `n` stories left.  Mirrors the source exactly: `prev_yaxis` is
initialized once before the loop and threaded across stories. -/
noncomputable def runStoriesFrom (p : CWParams) (segs : List (Vec3 × Vec3)) :
    ℕ → ℕ → Option Vec3 → (List Solid × List Solid) × Option Vec3
  | _, 0, prev => (([], []), prev)
  | s, n + 1, prev =>
    let r := processStory p segs ((s : ℝ) * p.story_height) prev
    let rs := runStoriesFrom p segs (s + 1) n r.2
    ((r.1.1 ++ rs.1.1, r.1.2 ++ rs.1.2), rs.2)

/-- `curtain_wall` (lines 48-196): resolve the guide, then run all stories;
returns (framing solids, glass solids). -/
noncomputable def curtain_wall (guide : GuideInput) (p : CWParams) :
    Except GuideError (List Solid × List Solid) :=
  (coercePolyline guide).map fun pts =>
    (runStoriesFrom p (segments pts) 0 p.stories none).1

/-! ## Floor plate (`floor_plate.py`) -/

/-- A slab produced by `_planar_slab`: the boundary curve translated to
`zBase` and extruded downward (capped) by `thickness`. -/
structure Slab (α : Type) where
  curve : α
  zBase : ℝ
  thickness : ℝ

/-- `_planar_slab(curve, z_base, thickness)`. -/
def planarSlab {α : Type} (c : α) (z t : ℝ) : Slab α := ⟨c, z, t⟩

/-- The outcome of the external `rs.coercecurve` on the floor boundary. -/
inductive FloorInput (α : Type)
  | notCurve
  | curve (c : α)

/-- `floor_plate` (floor_plate.py lines 30-73): four layers extruded
downward in sequence, each starting where the previous one ended.  The
returned dict is modelled as an association list in insertion order. -/
def floor_plate {α : Type} (boundary : FloorInput α)
    (elevation finish screed insulation structural : ℝ) :
    Except GuideError (List (String × Slab α)) :=
  match boundary with
  | .notCurve => .error .invalidGuideType
  | .curve c =>
    .ok [("finish", planarSlab c elevation finish),
         ("screed", planarSlab c (elevation - finish) screed),
         ("insulation", planarSlab c (elevation - finish - screed) insulation),
         ("structural", planarSlab c (elevation - finish - screed - insulation) structural)]

/-! ## A normal form for the per-bay computation

`processBayN` is `processBay` with the two point differences carried out:
the clear vector is `(step - mullion_width) • xaxis` (the story offset and
the `± mullion_width/2` edge offsets cancel), and the bay midpoint is the
interpolated point at parameter `j*step + step/2`.  `processBay_eq` proves
the two equal; all skip conditions are visibly independent of the story
offset `z0` and of the lateral axis `yaxis` in this form. -/

noncomputable def processBayN (p : CWParams) (ps xaxis yaxis : Vec3) (step z0 : ℝ)
    (j : ℕ) : List Solid × List Solid :=
  let cvec := (step - p.mullion_width) • xaxis
  let cspan := len cvec
  let mull : Solid :=
    ⟨.mullion, ⟨addZ (ps + ((j : ℝ) * step) • xaxis) z0, xaxis, yaxis⟩,
      p.mullion_width, p.mullion_depth, p.story_height⟩
  if cspan ≤ eps then ([mull], []) else
  let clear_width := cspan - 2 * p.glass_gap
  let clear_height := p.story_height - 2 * p.transom_height - 2 * p.glass_gap
  if clear_width ≤ eps ∨ clear_height ≤ eps then ([mull], []) else
  let clear_dir := unitize cvec
  let mid := addZ (ps + ((j : ℝ) * step + step * (1 / 2)) • xaxis) z0
  let bot : Solid :=
    ⟨.transom, ⟨⟨mid.x, mid.y, ps.z + z0⟩, clear_dir, yaxis⟩,
      cspan, p.transom_depth, p.transom_height⟩
  let top : Solid :=
    ⟨.transom, ⟨⟨mid.x, mid.y, ps.z + (z0 + p.story_height) - p.transom_height⟩, clear_dir, yaxis⟩,
      cspan, p.transom_depth, p.transom_height⟩
  let off := p.mullion_depth / 2 - p.glass_inset - p.panel_thickness / 2
  let gorigin : Vec3 :=
    ⟨mid.x - yaxis.x * off, mid.y - yaxis.y * off, ps.z + z0 + p.transom_height + p.glass_gap⟩
  let glass : Solid :=
    ⟨.glass, ⟨gorigin, clear_dir, yaxis⟩, clear_width, p.panel_thickness, clear_height⟩
  ([mull, bot, top], [glass])

/-! ## Lateral-axis propagation as a sequence -/

/-- The sequence of lateral axes assigned to the non-degenerate segments of
one traversal, in processing order, starting from propagation state `prev`
(the same skip condition, candidate computation and continuity rule as
`processSegment`). -/
noncomputable def laterals : List (Vec3 × Vec3) → Option Vec3 → List Vec3
  | [], _ => []
  | (ps, pe) :: rest, prev =>
    if len (pe - ps) ≤ eps then laterals rest prev
    else
      let yax := assignY prev (candidateY (unitize (pe - ps)))
      yax :: laterals rest (some yax)

/-- Mullion filter used to count/locate the bay-boundary mullions. -/
def isMullion : Solid → Bool := fun s =>
  match s.kind with
  | .mullion => true
  | _ => false

/-- Counterexample guide for story replication: three segments of length 25
turning by the rational angle `arctan(4/3)` each time, so the last assigned
lateral axis has negative dot product with the first segment's candidate. -/
def cexPts : List Vec3 := [⟨0, 0, 0⟩, ⟨25, 0, 0⟩, ⟨40, 20, 0⟩, ⟨33, 44, 0⟩]

/-- Default parameters with two stories. -/
def cexParams : CWParams := ⟨1350, 60, 120, 60, 120, 24, 40, 12, 3200, 2⟩

/-! ## Proof development -/

namespace Vec3

theorem ext_iff {a b : Vec3} : a = b ↔ a.x = b.x ∧ a.y = b.y ∧ a.z = b.z := by
  constructor
  · rintro rfl; exact ⟨rfl, rfl, rfl⟩
  · rcases a with ⟨ax, ay, az⟩; rcases b with ⟨bx, by_, bz⟩
    rintro ⟨h1, h2, h3⟩; simp_all

theorem ext {a b : Vec3} (h1 : a.x = b.x) (h2 : a.y = b.y) (h3 : a.z = b.z) : a = b :=
  ext_iff.mpr ⟨h1, h2, h3⟩

@[simp] theorem add_x (a b : Vec3) : (a + b).x = a.x + b.x := rfl
@[simp] theorem add_y (a b : Vec3) : (a + b).y = a.y + b.y := rfl
@[simp] theorem add_z (a b : Vec3) : (a + b).z = a.z + b.z := rfl
@[simp] theorem sub_x (a b : Vec3) : (a - b).x = a.x - b.x := rfl
@[simp] theorem sub_y (a b : Vec3) : (a - b).y = a.y - b.y := rfl
@[simp] theorem sub_z (a b : Vec3) : (a - b).z = a.z - b.z := rfl
@[simp] theorem neg_x (a : Vec3) : (-a).x = -a.x := rfl
@[simp] theorem neg_y (a : Vec3) : (-a).y = -a.y := rfl
@[simp] theorem neg_z (a : Vec3) : (-a).z = -a.z := rfl
@[simp] theorem smul_x (r : ℝ) (a : Vec3) : (r • a).x = r * a.x := rfl
@[simp] theorem smul_y (r : ℝ) (a : Vec3) : (r • a).y = r * a.y := rfl
@[simp] theorem smul_z (r : ℝ) (a : Vec3) : (r • a).z = r * a.z := rfl

@[simp] theorem addZ_x (v : Vec3) (dz : ℝ) : (addZ v dz).x = v.x := rfl
@[simp] theorem addZ_y (v : Vec3) (dz : ℝ) : (addZ v dz).y = v.y := rfl
@[simp] theorem addZ_z (v : Vec3) (dz : ℝ) : (addZ v dz).z = v.z + dz := rfl

end Vec3

theorem vsub_helper (ps x : Vec3) (z0 d0 d1 e : ℝ) :
    (addZ (ps + d1 • x) z0 - e • x) - (addZ (ps + d0 • x) z0 + e • x)
      = (d1 - d0 - 2 * e) • x := by
  apply Vec3.ext <;> simp <;> ring

theorem vmid_helper (ps x : Vec3) (z0 d0 d1 e : ℝ) :
    (1 / 2 : ℝ) • ((addZ (ps + d0 • x) z0 + e • x) + (addZ (ps + d1 • x) z0 - e • x))
      = addZ (ps + ((d0 + d1) * (1 / 2)) • x) z0 := by
  apply Vec3.ext <;> simp <;> ring

theorem processBay_eq (p : CWParams) (ps xaxis yaxis : Vec3) (step z0 : ℝ) (j : ℕ) :
    processBay p ps xaxis yaxis step z0 j = processBayN p ps xaxis yaxis step z0 j := by
  simp only [processBay, processBayN]
  rw [vsub_helper, vmid_helper,
    show ((j : ℝ) + 1) * step - (j : ℝ) * step - 2 * (p.mullion_width * (1 / 2))
        = step - p.mullion_width from by ring,
    show ((j : ℝ) * step + ((j : ℝ) + 1) * step) * (1 / 2)
        = (j : ℝ) * step + step * (1 / 2) from by ring]

/-! ## Story translation and kind invariance -/

/-- The skip conditions of a bay do not involve the story offset: a bay at
story offset `z0` is the vertical translate of the same bay at offset 0. -/
theorem processBayN_vtrans (p : CWParams) (ps xaxis yaxis : Vec3) (step z0 : ℝ) (j : ℕ) :
    processBayN p ps xaxis yaxis step z0 j
      = ((processBayN p ps xaxis yaxis step 0 j).1.map (vtransZ z0),
         (processBayN p ps xaxis yaxis step 0 j).2.map (vtransZ z0)) := by
  simp only [processBayN]
  split_ifs with h1 h2 <;>
    simp [vtransZ, addZ, Solid.mk.injEq, Plane.mk.injEq, Vec3.mk.injEq] <;>
    ring_nf <;> simp

/-- The skip conditions of a bay do not involve the lateral axis or the
story offset: the sequence of emitted kinds is invariant under both. -/
theorem processBayN_kinds (p : CWParams) (ps xaxis : Vec3) (step : ℝ) (j : ℕ)
    (yaxis yaxis' : Vec3) (z0 z0' : ℝ) :
    (processBayN p ps xaxis yaxis step z0 j).1.map Solid.kind
        = (processBayN p ps xaxis yaxis' step z0' j).1.map Solid.kind
      ∧ (processBayN p ps xaxis yaxis step z0 j).2.map Solid.kind
        = (processBayN p ps xaxis yaxis' step z0' j).2.map Solid.kind := by
  simp only [processBayN]
  split_ifs <;> simp

/-- A segment at story offset `z0` emits the vertical translates by `z0` of
what it emits at offset 0, with the same propagation state. -/
theorem processSegment_vtrans (p : CWParams) (ps pe : Vec3) (z0 : ℝ) (prev : Option Vec3) :
    processSegment p ps pe z0 prev
      = (((processSegment p ps pe 0 prev).1.1.map (vtransZ z0),
          (processSegment p ps pe 0 prev).1.2.map (vtransZ z0)),
         (processSegment p ps pe 0 prev).2) := by
  have hb : ∀ (x y : Vec3) (st : ℝ) (j : ℕ),
      processBay p ps x y st z0 j
        = ((processBay p ps x y st 0 j).1.map (vtransZ z0),
           (processBay p ps x y st 0 j).2.map (vtransZ z0)) := by
    intro x y st j
    rw [processBay_eq, processBay_eq, processBayN_vtrans]
  simp only [processSegment]
  split_ifs with h1
  · simp
  · simp only [hb, List.map_append, ← List.map_flatMap]
    simp [vtransZ, addZ]

/-- The kind sequence a segment emits does not depend on the story offset or
on the incoming propagation state. -/
theorem processSegment_kinds (p : CWParams) (ps pe : Vec3) (z0 z0' : ℝ)
    (prev prev' : Option Vec3) :
    (processSegment p ps pe z0 prev).1.1.map Solid.kind
        = (processSegment p ps pe z0' prev').1.1.map Solid.kind
      ∧ (processSegment p ps pe z0 prev).1.2.map Solid.kind
        = (processSegment p ps pe z0' prev').1.2.map Solid.kind := by
  have hb : ∀ (x y y' : Vec3) (st : ℝ) (j : ℕ),
      ((processBay p ps x y st z0 j).1.map Solid.kind
          = (processBay p ps x y' st z0' j).1.map Solid.kind)
        ∧ ((processBay p ps x y st z0 j).2.map Solid.kind
          = (processBay p ps x y' st z0' j).2.map Solid.kind) := by
    intro x y y' st j
    rw [processBay_eq, processBay_eq]
    exact processBayN_kinds p ps x st j y y' z0 z0'
  simp only [processSegment]
  split_ifs with h1
  · simp
  · constructor
    · simp only [List.map_append, List.map_flatMap]
      congr 1
      · congr 1
        exact funext fun j => (hb _ _ _ _ j).1
    · simp only [List.map_flatMap]
      congr 1
      exact funext fun j => (hb _ _ _ _ j).2

/-- A whole story traversal at offset `z0` is the vertical translate by
`z0` of the traversal at offset 0 from the same entry state, and ends in
the same propagation state. -/
theorem processStory_vtrans (p : CWParams) :
    ∀ (segs : List (Vec3 × Vec3)) (z0 : ℝ) (prev : Option Vec3),
      processStory p segs z0 prev
        = (((processStory p segs 0 prev).1.1.map (vtransZ z0),
            (processStory p segs 0 prev).1.2.map (vtransZ z0)),
           (processStory p segs 0 prev).2)
  | [], z0, prev => by simp [processStory]
  | (ps, pe) :: rest, z0, prev => by
    simp only [processStory]
    rw [processSegment_vtrans p ps pe z0 prev,
      processStory_vtrans p rest z0 (processSegment p ps pe 0 prev).2]
    simp [List.map_append]

/-- The kind sequences a story emits do not depend on the story offset or
on the entry propagation state. -/
theorem processStory_kinds (p : CWParams) :
    ∀ (segs : List (Vec3 × Vec3)) (z0 z0' : ℝ) (prev prev' : Option Vec3),
      ((processStory p segs z0 prev).1.1.map Solid.kind
          = (processStory p segs z0' prev').1.1.map Solid.kind)
        ∧ ((processStory p segs z0 prev).1.2.map Solid.kind
          = (processStory p segs z0' prev').1.2.map Solid.kind)
  | [], _, _, _, _ => ⟨rfl, rfl⟩
  | (ps, pe) :: rest, z0, z0', prev, prev' => by
    have hseg := processSegment_kinds p ps pe z0 z0' prev prev'
    have hrest := processStory_kinds p rest z0 z0'
      (processSegment p ps pe z0 prev).2 (processSegment p ps pe z0' prev').2
    simp only [processStory, List.map_append]
    exact ⟨by rw [hseg.1, hrest.1], by rw [hseg.2, hrest.2]⟩

/-- The story loop emits, per story, the same kind sequence as a story-0
traversal started from `None`: the whole run's kind sequence is that
sequence replicated `n` times. -/
theorem runStoriesFrom_kinds (p : CWParams) (segs : List (Vec3 × Vec3)) :
    ∀ (n s : ℕ) (prev : Option Vec3),
      ((runStoriesFrom p segs s n prev).1.1.map Solid.kind
          = (List.replicate n ((processStory p segs 0 none).1.1.map Solid.kind)).flatten)
        ∧ ((runStoriesFrom p segs s n prev).1.2.map Solid.kind
          = (List.replicate n ((processStory p segs 0 none).1.2.map Solid.kind)).flatten)
  | 0, s, prev => by simp [runStoriesFrom]
  | n + 1, s, prev => by
    have hstory := processStory_kinds p segs ((s : ℝ) * p.story_height) 0 prev none
    have hrest := runStoriesFrom_kinds p segs n (s + 1)
      (processStory p segs ((s : ℝ) * p.story_height) prev).2
    simp only [runStoriesFrom, List.map_append, List.replicate_succ, List.flatten_cons]
    exact ⟨by rw [hstory.1, hrest.1], by rw [hstory.2, hrest.2]⟩

theorem count_flatten_replicate {α : Type} [BEq α] (L : List α) (k : α) :
    ∀ n : ℕ, ((List.replicate n L).flatten).count k = n * L.count k
  | 0 => by simp
  | n + 1 => by
    simp [List.replicate_succ, List.count_append, count_flatten_replicate L k n]
    ring

theorem length_flatten_replicate {α : Type} (L : List α) :
    ∀ n : ℕ, ((List.replicate n L).flatten).length = n * L.length
  | 0 => by simp
  | n + 1 => by
    simp [List.replicate_succ, length_flatten_replicate L n]
    ring

/-- Faithfulness link: the propagation state a story traversal ends in is
the last assigned lateral axis (or the entry state if no segment was
non-degenerate). -/
theorem processStory_state (p : CWParams) :
    ∀ (segs : List (Vec3 × Vec3)) (z0 : ℝ) (prev : Option Vec3),
      (processStory p segs z0 prev).2 = ((laterals segs prev).getLast?).elim prev some
  | [], z0, prev => rfl
  | (ps, pe) :: rest, z0, prev => by
    simp only [processStory, processSegment, laterals]
    split_ifs with hd
    · exact processStory_state p rest z0 prev
    · rw [processStory_state p rest z0 _]
      rcases hl : laterals rest (some (assignY prev (candidateY (unitize (pe - ps))))) with
        _ | ⟨l0, ltl⟩
      · simp
      · simp [List.getLast?_cons_cons]
        cases ltl <;> simp [List.getLast?]

theorem dot_comm (a b : Vec3) : dot a b = dot b a := by simp [dot]; ring

theorem dot_neg_left (a b : Vec3) : dot (-a) b = -(dot a b) := by simp [dot]; ring

/-- After the continuity rule, the assigned lateral axis never has negative
dot product with the previous one. -/
theorem dot_assignY_nonneg (pv c : Vec3) : 0 ≤ dot (assignY (some pv) c) pv := by
  simp only [assignY]
  split_ifs with h
  · rw [dot_neg_left]; linarith
  · exact not_lt.mp h

/-- The assigned lateral axes of one traversal form a chain with pairwise
nonnegative dot products, and the head continues the entry state. -/
theorem laterals_chain :
    ∀ (segs : List (Vec3 × Vec3)) (prev : Option Vec3),
      List.Chain' (fun a b => 0 ≤ dot a b) (laterals segs prev)
        ∧ ∀ (pv h : Vec3), prev = some pv → (laterals segs prev).head? = some h →
            0 ≤ dot pv h
  | [], prev => by simp [laterals]
  | (ps, pe) :: rest, prev => by
    simp only [laterals]
    split_ifs with hd
    · exact laterals_chain rest prev
    · have ih := laterals_chain rest (some (assignY prev (candidateY (unitize (pe - ps)))))
      refine ⟨?_, ?_⟩
      · refine List.chain'_cons'.mpr ⟨?_, ih.1⟩
        intro h hh
        exact ih.2 _ h rfl hh
      · rintro pv h hpv hh
        simp only [List.head?_cons, Option.some.injEq] at hh
        subst hh hpv
        rw [dot_comm]
        exact dot_assignY_nonneg pv (candidateY (unitize (pe - ps)))

/-! ## Claim theorems -/

/-- C1 (amended).  Story replication as the code implements it: for
`stories = N` the total count of each solid kind (mullion, transom, glass)
is `N` times the corresponding single-story count, and a story traversal at
offset `s * story_height` emits exactly the vertical translates by that
offset of a base-height traversal started from the same entry propagation
state.  The propagation state is initialized once before the story loop and
threaded across stories (not restarted per story), so a later story whose
entry state differs from story 0's can get flipped lateral axes. -/
theorem story_replication_counts_and_translation (p : CWParams) (pts : List Vec3) :
    (∀ k : SolidKind,
        countKind k (runStoriesFrom p (segments pts) 0 p.stories none).1.1
            = p.stories * countKind k (processStory p (segments pts) 0 none).1.1
          ∧ countKind k (runStoriesFrom p (segments pts) 0 p.stories none).1.2
            = p.stories * countKind k (processStory p (segments pts) 0 none).1.2)
    ∧ (runStoriesFrom p (segments pts) 0 p.stories none).1.1.length
        = p.stories * (processStory p (segments pts) 0 none).1.1.length
    ∧ (runStoriesFrom p (segments pts) 0 p.stories none).1.2.length
        = p.stories * (processStory p (segments pts) 0 none).1.2.length
    ∧ ∀ (s : ℕ) (prev : Option Vec3),
        processStory p (segments pts) ((s : ℝ) * p.story_height) prev
          = (((processStory p (segments pts) 0 prev).1.1.map
                (vtransZ ((s : ℝ) * p.story_height)),
              (processStory p (segments pts) 0 prev).1.2.map
                (vtransZ ((s : ℝ) * p.story_height))),
             (processStory p (segments pts) 0 prev).2) := by
  have hk := runStoriesFrom_kinds p (segments pts) p.stories 0 none
  refine ⟨?_, ?_, ?_, ?_⟩
  · intro k
    constructor
    · rw [countKind, countKind, hk.1, count_flatten_replicate]
    · rw [countKind, countKind, hk.2, count_flatten_replicate]
  · have := congrArg List.length hk.1
    rwa [List.length_map, length_flatten_replicate, List.length_map] at this
  · have := congrArg List.length hk.2
    rwa [List.length_map, length_flatten_replicate, List.length_map] at this
  · intro s prev
    exact processStory_vtrans p (segments pts) ((s : ℝ) * p.story_height) prev

/-- C2.  Lateral-axis continuity: any two consecutively assigned lateral
axes of one traversal have nonnegative dot product; the continuity rule
negates the candidate exactly when a previous lateral axis exists and has
negative dot with it; a near-vertical segment (tiny cross product of world
up with the forward axis) falls back to the world Y axis. -/
theorem lateral_axis_continuity (segs : List (Vec3 × Vec3)) (prev : Option Vec3)
    (i : ℕ) (a b : Vec3)
    (h1 : (laterals segs prev)[i]? = some a)
    (h2 : (laterals segs prev)[i + 1]? = some b) :
    0 ≤ dot a b
    ∧ (∀ c pv : Vec3, c ≠ ⟨0, 0, 0⟩ → (assignY (some pv) c = -c ↔ dot c pv < 0))
    ∧ (∀ c : Vec3, assignY none c = c)
    ∧ (∀ v : Vec3, isTiny (cross zAxis v) → candidateY v = worldY) := by
  refine ⟨?_, ?_, fun c => rfl, ?_⟩
  · have hchain := (laterals_chain segs prev).1
    rw [List.chain'_iff_get] at hchain
    rcases List.getElem?_eq_some.mp h1 with ⟨hi, hgi⟩
    rcases List.getElem?_eq_some.mp h2 with ⟨hi1, hgi1⟩
    have hp := hchain i (by omega)
    simp only [List.get_eq_getElem] at hp
    rwa [hgi, hgi1] at hp
  · intro c pv hc
    simp only [assignY]
    split_ifs with h
    · exact ⟨fun _ => h, fun _ => rfl⟩
    · constructor
      · intro hcc
        exfalso
        apply hc
        have hx := congrArg Vec3.x hcc
        have hy := congrArg Vec3.y hcc
        have hz := congrArg Vec3.z hcc
        simp only [Vec3.neg_x, Vec3.neg_y, Vec3.neg_z] at hx hy hz
        refine Vec3.ext ?_ ?_ ?_ <;> simp <;> linarith
      · intro hlt
        exact absurd hlt h
  · intro v hv
    rw [candidateY, if_pos hv]
    have h1 : len worldY = 1 := by
      simp [len, worldY]
    rw [unitize, if_neg (by rw [h1]; norm_num), h1]
    apply Vec3.ext <;> simp [worldY]

/-- C3.  Bay subdivision: for positive length and spacing, the bay count is
`max 1 ⌊length/spacing⌋`, bay width times bay count is exactly the length,
spacing larger than the length gives exactly one bay, and length larger
than spacing gives `⌊length/spacing⌋ ≥ 1` bays. -/
theorem bay_subdivision_spec (segLen spacing : ℝ) (hl : 0 < segLen) (hs : 0 < spacing) :
    ((panelCount segLen spacing : ℤ) = max 1 ⌊segLen / spacing⌋)
    ∧ bayStep segLen spacing * (panelCount segLen spacing : ℝ) = segLen
    ∧ (segLen < spacing → panelCount segLen spacing = 1)
    ∧ (spacing < segLen →
        (panelCount segLen spacing : ℤ) = ⌊segLen / spacing⌋
          ∧ 1 ≤ panelCount segLen spacing) := by
  have hfl : 0 ≤ ⌊segLen / spacing⌋ := Int.floor_nonneg.mpr (div_nonneg hl.le hs.le)
  have hone : 1 ≤ panelCount segLen spacing := le_max_left 1 _
  have hcast : (panelCount segLen spacing : ℤ) = max 1 ⌊segLen / spacing⌋ := by
    rw [panelCount]
    push_cast [Int.toNat_of_nonneg hfl]
    rfl
  refine ⟨hcast, ?_, ?_, ?_⟩
  · have hne : (panelCount segLen spacing : ℝ) ≠ 0 := by
      have hpos : 0 < panelCount segLen spacing := lt_of_lt_of_le one_pos hone
      exact_mod_cast hpos.ne.symm
    rw [bayStep]
    exact div_mul_cancel₀ segLen hne
  · intro h
    have hdiv : segLen / spacing < 1 := (div_lt_one hs).mpr h
    have hz : ⌊segLen / spacing⌋ = 0 :=
      Int.floor_eq_zero_iff.mpr ⟨div_nonneg hl.le hs.le, hdiv⟩
    simp [panelCount, hz]
  · intro h
    have hdiv : (1 : ℝ) ≤ segLen / spacing := (one_le_div hs).mpr h.le
    have h1 : (1 : ℤ) ≤ ⌊segLen / spacing⌋ := Int.le_floor.mpr (by exact_mod_cast hdiv)
    exact ⟨by omega, hone⟩

/-- C4.  A bay whose clear width or clear height is not above the epsilon
emits no transom and no glass solids, but its bay-start mullion (and, for a
non-degenerate segment, the end-of-segment mullion) are still emitted; the
skip is silent. -/
theorem degenerate_bay_skips_infill (p : CWParams) (ps xaxis yaxis pe : Vec3)
    (step z0 : ℝ) (j : ℕ) (prev : Option Vec3)
    (h : len ((step - p.mullion_width) • xaxis) - 2 * p.glass_gap ≤ eps
       ∨ p.story_height - 2 * p.transom_height - 2 * p.glass_gap ≤ eps) :
    (processBay p ps xaxis yaxis step z0 j).1.map Solid.kind = [SolidKind.mullion]
    ∧ (processBay p ps xaxis yaxis step z0 j).1.map (fun s => s.plane.origin)
        = [addZ (ps + ((j : ℝ) * step) • xaxis) z0]
    ∧ (processBay p ps xaxis yaxis step z0 j).2 = []
    ∧ (eps < len (pe - ps) →
        ((processSegment p ps pe z0 prev).1.1.getLast?).map Solid.kind
          = some SolidKind.mullion) := by
  have hbay : processBay p ps xaxis yaxis step z0 j
      = ([⟨.mullion, ⟨addZ (ps + ((j : ℝ) * step) • xaxis) z0, xaxis, yaxis⟩,
           p.mullion_width, p.mullion_depth, p.story_height⟩], []) := by
    rw [processBay_eq]
    simp only [processBayN]
    split_ifs with hc1 <;> rfl
  refine ⟨by rw [hbay]; rfl, by rw [hbay]; rfl, by rw [hbay], ?_⟩
  intro hseg
  simp only [processSegment]
  rw [if_neg (not_le.mpr hseg)]
  simp [List.getLast?_concat]

/-- C5 (amended).  Every emitted glass solid sits laterally offset from the
bay midline toward the negative-lateral side by `mullion_depth/2 -
glass_inset - panel_thickness/2`, has width `clear_span - 2*glass_gap`,
thickness `panel_thickness`, and height equal to the clear height; with a
nonnegative glass gap it is contained in the clear span.  Because the
offset goes toward the negative-lateral side, the `glass_inset` clearance
lands on the *inner* (negative-lateral) faces — `off + thickness/2 +
inset = depth/2` — while the clearance between the *outer* faces is
`mullion_depth - glass_inset - panel_thickness` (56 at the defaults, not
`glass_inset`; see `glazing_outer_face_cex`). -/
theorem glazing_inset_and_containment (p : CWParams) (ps xaxis yaxis : Vec3)
    (step z0 : ℝ) (j : ℕ) (g : Solid)
    (hg : g ∈ (processBay p ps xaxis yaxis step z0 j).2) :
    g.kind = SolidKind.glass
    ∧ g.plane.origin.x
        = (addZ (ps + ((j : ℝ) * step + step * (1 / 2)) • xaxis) z0).x
            - yaxis.x * (p.mullion_depth / 2 - p.glass_inset - p.panel_thickness / 2)
    ∧ g.plane.origin.y
        = (addZ (ps + ((j : ℝ) * step + step * (1 / 2)) • xaxis) z0).y
            - yaxis.y * (p.mullion_depth / 2 - p.glass_inset - p.panel_thickness / 2)
    ∧ g.plane.origin.z = ps.z + z0 + p.transom_height + p.glass_gap
    ∧ g.sizeX = len ((step - p.mullion_width) • xaxis) - 2 * p.glass_gap
    ∧ g.sizeY = p.panel_thickness
    ∧ g.height = p.story_height - 2 * p.transom_height - 2 * p.glass_gap
    ∧ (0 ≤ p.glass_gap → g.sizeX ≤ len ((step - p.mullion_width) • xaxis))
    ∧ (p.mullion_depth / 2 - p.glass_inset - p.panel_thickness / 2)
          + p.panel_thickness / 2 + p.glass_inset = p.mullion_depth / 2
    ∧ p.mullion_depth / 2 + (p.mullion_depth / 2 - p.glass_inset - p.panel_thickness / 2)
          - p.panel_thickness / 2 = p.mullion_depth - p.glass_inset - p.panel_thickness := by
  rw [processBay_eq] at hg
  simp only [processBayN] at hg
  split_ifs at hg
  · simp at hg
  · simp at hg
  · rw [List.mem_singleton] at hg
    subst hg
    refine ⟨rfl, rfl, rfl, rfl, rfl, rfl, rfl, ?_, by ring, by ring⟩
    intro hgap
    simp only
    linarith

/-- C6.  The guide resolver fails with `InvalidGuideType` exactly on a
non-curve handle, `NotPolylineShape` exactly on a non-polyline curve and
`DegenerateGuide` exactly on a polyline with fewer than 2 points; on a
polyline of at least 2 points it returns the point sequence unchanged, and
`curtain_wall` propagates exactly these errors (producing no solids). -/
theorem guide_resolver_errors (g : GuideInput) (p : CWParams) :
    (coercePolyline g = .error .invalidGuideType ↔ g = .notCurve)
    ∧ (coercePolyline g = .error .notPolylineShape ↔ g = .nonPolylineCurve)
    ∧ (coercePolyline g = .error .degenerateGuide
        ↔ ∃ pts, g = .polyline pts ∧ pts.length < 2)
    ∧ (∀ pts, g = .polyline pts → 2 ≤ pts.length → coercePolyline g = .ok pts)
    ∧ (∀ e, curtain_wall g p = .error e ↔ coercePolyline g = .error e) := by
  have hcw : ∀ e, curtain_wall g p = .error e ↔ coercePolyline g = .error e := by
    intro e
    rw [curtain_wall]
    cases hc : coercePolyline g <;> simp [Except.map]
  refine ⟨?_, ?_, ?_, ?_, hcw⟩
  · rcases g with _ | _ | pts
    · simp [coercePolyline]
    · simp [coercePolyline]
    · simp only [coercePolyline]
      split_ifs <;> simp
  · rcases g with _ | _ | pts
    · simp [coercePolyline]
    · simp [coercePolyline]
    · simp only [coercePolyline]
      split_ifs <;> simp
  · rcases g with _ | _ | pts
    · simp [coercePolyline]
    · simp [coercePolyline]
    · simp only [coercePolyline]
      split_ifs with hlen <;> simp [hlen]
  · rintro pts' hg h2
    subst hg
    simp only [coercePolyline]
    rw [if_neg (by omega)]

/-- If every story traversal of the guide emits nothing (e.g. all segments
degenerate), the whole story loop emits nothing and leaves the propagation
state unchanged. -/
theorem runStoriesFrom_empty (p : CWParams) (segs : List (Vec3 × Vec3))
    (hstory : ∀ (z : ℝ) (pr : Option Vec3), processStory p segs z pr = (([], []), pr)) :
    ∀ (n s : ℕ) (pr : Option Vec3), runStoriesFrom p segs s n pr = (([], []), pr)
  | 0, s, pr => rfl
  | n + 1, s, pr => by
    simp only [runStoriesFrom, hstory, runStoriesFrom_empty p segs hstory n (s + 1) pr]
    rfl

/-- C7.  A segment of length at most epsilon is a silent no-op: no frame,
no solids, no error, no propagation-state update; in particular a guide of
two coincident points yields two empty output collections. -/
theorem degenerate_segment_noop (p : CWParams) (ps pe pt : Vec3) (z0 : ℝ)
    (prev : Option Vec3) (h : len (pe - ps) ≤ eps) :
    processSegment p ps pe z0 prev = (([], []), prev)
    ∧ curtain_wall (GuideInput.polyline [pt, pt]) p = .ok ([], []) := by
  constructor
  · simp only [processSegment]
    rw [if_pos h]
  · have h0 : len (pt - pt) ≤ eps := by
      simp [len, eps]
    have hstory : ∀ (z : ℝ) (pr : Option Vec3),
        processStory p [(pt, pt)] z pr = (([], []), pr) := by
      intro z pr
      simp only [processStory, processSegment]
      rw [if_pos h0]
      rfl
    have hseg : segments [pt, pt] = [(pt, pt)] := rfl
    rw [curtain_wall]
    simp only [coercePolyline, List.length_cons, List.length_nil]
    rw [if_neg (by omega)]
    simp only [Except.map, hseg, runStoriesFrom_empty p [(pt, pt)] hstory p.stories 0 none]

/-- C9.  The floor plate is a mapping of exactly the four named layers, in
order, each the boundary extruded downward by its own thickness, the finish
layer's top at the given elevation and each following layer's top exactly
where the previous layer ended. -/
theorem floor_plate_layers {α : Type} (b : α) (elevation f s i st : ℝ) :
    floor_plate (FloorInput.curve b) elevation f s i st
      = .ok [("finish", planarSlab b elevation f),
             ("screed", planarSlab b (elevation - f) s),
             ("insulation", planarSlab b (elevation - f - s) i),
             ("structural", planarSlab b (elevation - f - s - i) st)]
    ∧ (floor_plate (FloorInput.curve b) elevation f s i st).map (List.map Prod.fst)
      = .ok ["finish", "screed", "insulation", "structural"]
    ∧ (floor_plate (FloorInput.curve b) elevation f s i st).map
        (List.map fun e => (e.2.curve, e.2.zBase, e.2.thickness))
      = .ok [(b, elevation, f), (b, elevation - f, s),
             (b, elevation - f - s, i), (b, elevation - f - s - i, st)] := by
  exact ⟨rfl, rfl, rfl⟩

/-- C10 (implicit).  The vertical placement of the transoms and of the
glass panel of a bay is computed from the segment start point's elevation
plus the story offset, identically for every bay index `j`, while the
bay-start mullion's origin is the interpolated bay-boundary point (raised
by the story offset): on a sloped segment the transoms and glass do not
follow the guide's elevation. -/
theorem transom_glass_fixed_elevation (p : CWParams) (ps xaxis yaxis : Vec3)
    (step z0 : ℝ) (j : ℕ) :
    ((processBay p ps xaxis yaxis step z0 j).1.head?).map (fun s => s.plane.origin)
        = some (addZ (ps + ((j : ℝ) * step) • xaxis) z0)
    ∧ (∀ s_ ∈ (processBay p ps xaxis yaxis step z0 j).1, s_.kind = SolidKind.transom →
        s_.plane.origin.z = ps.z + z0
          ∨ s_.plane.origin.z = ps.z + (z0 + p.story_height) - p.transom_height)
    ∧ (∀ g ∈ (processBay p ps xaxis yaxis step z0 j).2,
        g.plane.origin.z = ps.z + z0 + p.transom_height + p.glass_gap) := by
  rw [processBay_eq]
  simp only [processBayN]
  split_ifs with hc1 hc2
  · refine ⟨rfl, ?_, ?_⟩
    · intro s_ hs_ hk
      rw [List.mem_singleton] at hs_
      subst hs_
      exact absurd hk (by simp)
    · intro g hg
      simp at hg
  · refine ⟨rfl, ?_, ?_⟩
    · intro s_ hs_ hk
      rw [List.mem_singleton] at hs_
      subst hs_
      exact absurd hk (by simp)
    · intro g hg
      simp at hg
  · refine ⟨rfl, ?_, ?_⟩
    · intro s_ hs_ hk
      simp only [List.mem_cons, List.mem_singleton] at hs_
      rcases hs_ with rfl | rfl | (rfl | hs_)
      · exact absurd hk (by simp)
      · exact Or.inl rfl
      · exact Or.inr rfl
      · simp at hs_
    · intro g hg
      rw [List.mem_singleton] at hg
      subst hg
      rfl

/-! ## Square-root evaluations for concrete runs -/

theorem sqrt_eval {a b : ℝ} (hb : 0 ≤ b) (h : b ^ 2 = a) : Real.sqrt a = b := by
  rw [← h, Real.sqrt_sq hb]

theorem sqrt_16000000 : Real.sqrt 16000000 = 4000 := sqrt_eval (by norm_num) (by norm_num)
theorem sqrt_3763600 : Real.sqrt 3763600 = 1940 := sqrt_eval (by norm_num) (by norm_num)

/-- C8.  Straight single-segment guide of length 4000, default spacing
1350, one story: the bay count is 2 and exactly 3 bay-boundary mullions are
emitted, at the start, midpoint and end of the segment (framing list also
holds the 4 transoms; 2 glass panels). -/
theorem demo_guide_three_mullions :
    panelCount 4000 1350 = 2
    ∧ (curtain_wall (GuideInput.polyline [⟨0, 0, 0⟩, ⟨4000, 0, 0⟩]) defaultParams).map
        (fun r => ((r.1.filter isMullion).map fun s => s.plane.origin, r.1.length, r.2.length))
      = .ok ([⟨0, 0, 0⟩, ⟨2000, 0, 0⟩, ⟨4000, 0, 0⟩], 7, 2) := by
  have hfloor : ⌊(4000 : ℝ) / 1350⌋ = 2 := by norm_num
  have hpc : panelCount 4000 1350 = 2 := by
    show max 1 (⌊(4000 : ℝ) / 1350⌋).toNat = 2
    rw [hfloor]
    decide
  constructor
  · exact hpc
  · norm_num [curtain_wall, coercePolyline, segments, runStoriesFrom, processStory,
      processSegment, processBay, hpc, bayStep, candidateY, assignY, unitize, len,
      isTiny, tinyTol, eps, dot, cross, addZ, zAxis, worldY, defaultParams, Except.map,
      List.range_succ, abs_le, sqrt_16000000, sqrt_3763600, isMullion, List.filter,
      Vec3.ext_iff]

/-- Counterexample to C5 as stated.  The code's own reading of "outer face"
(the comment `Outer face is +yaxis*(mullion_depth/2)` at line 172) puts the
mullion's outer face of the demo bay at lateral coordinate `+60` and the glass's
outer face at `-8 + 24/2 = +4`: the outer-face clearance is `56 =
mullion_depth - glass_inset - panel_thickness`, not `glass_inset = 40`.
The `glass_inset` clearance sits between the inner faces instead. -/
theorem glazing_outer_face_cex :
    ((processBay defaultParams ⟨0, 0, 0⟩ ⟨1, 0, 0⟩ ⟨0, 1, 0⟩ 2000 0 0).2.head?).map
        (fun g => g.plane.origin.y + g.sizeY / 2) = some 4
    ∧ ((processBay defaultParams ⟨0, 0, 0⟩ ⟨1, 0, 0⟩ ⟨0, 1, 0⟩ 2000 0 0).1.head?).map
        (fun m => m.plane.origin.y + m.sizeY / 2) = some 60
    ∧ defaultParams.glass_inset = 40
    ∧ (60 : ℝ) - 4 ≠ 40 := by
  refine ⟨?_, ?_, rfl, by norm_num⟩ <;>
    norm_num [processBay, defaultParams, unitize, len, eps, addZ, sqrt_3763600]

theorem sqrt_625 : Real.sqrt 625 = 25 := sqrt_eval (by norm_num) (by norm_num)
theorem sqrt_1225 : Real.sqrt 1225 = 35 := sqrt_eval (by norm_num) (by norm_num)

set_option maxHeartbeats 4000000 in
/-- Counterexample to C1 as stated: with `stories = 2` on `cexPts`, the
run is story 0's traversal followed by a story-1 traversal that continues
(not restarts) the propagation state, and story 1's first solid is *not*
the vertical translate by `story_height × 1` of story 0's first solid (its
lateral axis is flipped). -/
theorem story_state_not_restarted_cex :
    (curtain_wall (GuideInput.polyline cexPts) cexParams)
      = .ok ((processStory cexParams (segments cexPts) 0 none).1.1
               ++ (processStory cexParams (segments cexPts) 3200
                     (processStory cexParams (segments cexPts) 0 none).2).1.1,
             (processStory cexParams (segments cexPts) 0 none).1.2
               ++ (processStory cexParams (segments cexPts) 3200
                     (processStory cexParams (segments cexPts) 0 none).2).1.2)
    ∧ (processStory cexParams (segments cexPts) 0 none).1.1.length = 12
    ∧ (((processStory cexParams (segments cexPts) 0 none).1.1.head?).map
          (fun s => s.plane.yaxis)) = some ⟨0, 1, 0⟩
    ∧ (((processStory cexParams (segments cexPts) 3200
          (processStory cexParams (segments cexPts) 0 none).2).1.1.head?).map
          (fun s => s.plane.yaxis)) = some ⟨0, -1, 0⟩
    ∧ ((processStory cexParams (segments cexPts) 3200
          (processStory cexParams (segments cexPts) 0 none).2).1.1.head?)
        ≠ (((processStory cexParams (segments cexPts) 0 none).1.1.head?).map
            (vtransZ (3200 * 1))) := by
  have hsegs : segments cexPts
      = [(⟨0, 0, 0⟩, ⟨25, 0, 0⟩), (⟨25, 0, 0⟩, ⟨40, 20, 0⟩), (⟨40, 20, 0⟩, ⟨33, 44, 0⟩)] := rfl
  have hco : coercePolyline (GuideInput.polyline cexPts) = .ok cexPts := rfl
  have hfl : ⌊(25 : ℝ) / 1350⌋ = 0 := by norm_num
  have hpc : panelCount 25 1350 = 1 := by
    show max 1 (⌊(25 : ℝ) / 1350⌋).toNat = 1
    rw [hfl]
    decide
  have hstate : (processStory cexParams (segments cexPts) 0 none).2
      = some ⟨-24/25, -7/25, 0⟩ := by
    rw [processStory_state, hsegs]
    norm_num [laterals, candidateY, assignY, unitize, len, isTiny, tinyTol, eps, dot,
      cross, zAxis, worldY, sqrt_625, abs_le, List.getLast?, Vec3.ext_iff]
  have hh1 : (processSegment cexParams ⟨0, 0, 0⟩ ⟨25, 0, 0⟩ 3200
      (some ⟨-24/25, -7/25, 0⟩)).1.1.head?
      = some ⟨.mullion, ⟨⟨0, 0, 3200⟩, ⟨1, 0, 0⟩, ⟨0, -1, 0⟩⟩, 60, 120, 3200⟩ := by
    norm_num [processSegment, processBay, hpc, bayStep, candidateY, assignY, unitize,
      len, isTiny, tinyTol, eps, dot, cross, addZ, zAxis, worldY, cexParams,
      List.range_succ, abs_le, sqrt_625, sqrt_1225, Vec3.ext_iff]
  have hh0 : (processSegment cexParams ⟨0, 0, 0⟩ ⟨25, 0, 0⟩ 0
      (none : Option Vec3)).1.1.head?
      = some ⟨.mullion, ⟨⟨0, 0, 0⟩, ⟨1, 0, 0⟩, ⟨0, 1, 0⟩⟩, 60, 120, 3200⟩ := by
    norm_num [processSegment, processBay, hpc, bayStep, candidateY, assignY, unitize,
      len, isTiny, tinyTol, eps, dot, cross, addZ, zAxis, worldY, cexParams,
      List.range_succ, abs_le, sqrt_625, sqrt_1225, Vec3.ext_iff]
  refine ⟨?_, ?_, ?_, ?_, ?_⟩
  · rw [curtain_wall, hco]
    show Except.ok (runStoriesFrom cexParams (segments cexPts) 0 cexParams.stories none).1 = _
    have hst : cexParams.stories = 2 := rfl
    rw [hst]
    simp only [runStoriesFrom]
    norm_num
    exact ⟨rfl, rfl⟩
  · rw [hsegs]
    norm_num [processStory, processSegment, processBay, hpc, bayStep, candidateY,
      assignY, unitize, len, isTiny, tinyTol, eps, dot, cross, addZ, zAxis, worldY,
      cexParams, List.range_succ, abs_le, sqrt_625, sqrt_1225]
  · rw [hsegs]
    simp only [processStory, List.head?_append, hh0]
    rfl
  · rw [hstate, hsegs]
    simp only [processStory, List.head?_append, hh1]
    rfl
  · rw [hstate, hsegs]
    simp only [processStory, List.head?_append, hh1, hh0]
    simp [vtransZ, addZ, Solid.mk.injEq, Plane.mk.injEq, Vec3.ext_iff]
    norm_num

/-! ## Witnesses: the claim theorems applied at concrete inputs -/

theorem lateral_axis_continuity_witness :
    0 ≤ dot ⟨0, 1, 0⟩ ⟨-1, 0, 0⟩ := by
  have hlat : laterals [(⟨0, 0, 0⟩, ⟨1, 0, 0⟩), (⟨1, 0, 0⟩, ⟨1, 1, 0⟩)] none
      = [⟨0, 1, 0⟩, ⟨-1, 0, 0⟩] := by
    norm_num [laterals, candidateY, assignY, unitize, len, isTiny, tinyTol, eps, dot,
      cross, zAxis, worldY, abs_le, Vec3.ext_iff]
  exact (lateral_axis_continuity [(⟨0, 0, 0⟩, ⟨1, 0, 0⟩), (⟨1, 0, 0⟩, ⟨1, 1, 0⟩)] none 0
    ⟨0, 1, 0⟩ ⟨-1, 0, 0⟩ (by rw [hlat]; rfl) (by rw [hlat]; rfl)).1

theorem bay_subdivision_spec_witness :
    bayStep 4000 1350 * (panelCount 4000 1350 : ℝ) = 4000 :=
  (bay_subdivision_spec 4000 1350 (by norm_num) (by norm_num)).2.1

theorem degenerate_bay_skips_infill_witness :
    (processBay ⟨1350, 60, 120, 1600, 120, 24, 40, 12, 3200, 1⟩
      ⟨0, 0, 0⟩ ⟨1, 0, 0⟩ ⟨0, 1, 0⟩ 2000 0 0).2 = [] :=
  (degenerate_bay_skips_infill ⟨1350, 60, 120, 1600, 120, 24, 40, 12, 3200, 1⟩
    ⟨0, 0, 0⟩ ⟨1, 0, 0⟩ ⟨0, 1, 0⟩ ⟨4000, 0, 0⟩ 2000 0 0 none
    (Or.inr (by norm_num [eps]))).2.2.1

theorem glazing_inset_and_containment_witness :
    Solid.kind ⟨.glass, ⟨⟨1000, -8, 72⟩, ⟨1, 0, 0⟩, ⟨0, 1, 0⟩⟩, 1916, 24, 3056⟩
      = SolidKind.glass := by
  have hfl : ⌊(4000 : ℝ) / 1350⌋ = 2 := by norm_num
  have hlist : (processBay defaultParams ⟨0, 0, 0⟩ ⟨1, 0, 0⟩ ⟨0, 1, 0⟩ 2000 0 0).2
      = [⟨.glass, ⟨⟨1000, -8, 72⟩, ⟨1, 0, 0⟩, ⟨0, 1, 0⟩⟩, 1916, 24, 3056⟩] := by
    norm_num [processBay, defaultParams, unitize, len, eps, addZ, Vec3.ext_iff,
      sqrt_3763600]
  exact (glazing_inset_and_containment defaultParams ⟨0, 0, 0⟩ ⟨1, 0, 0⟩ ⟨0, 1, 0⟩
    2000 0 0 _ (by rw [hlist]; exact List.mem_singleton.mpr rfl)).1

theorem degenerate_segment_noop_witness :
    processSegment defaultParams ⟨0, 0, 0⟩ ⟨0, 0, 0⟩ 0 none = (([], []), none) :=
  (degenerate_segment_noop defaultParams ⟨0, 0, 0⟩ ⟨0, 0, 0⟩ ⟨0, 0, 0⟩ 0 none
    (by norm_num [len, eps])).1

end BimLib
